import Mathlib

/-!
# Verification of the DailyJournal aggregation pipeline

Shallow embedding of the core data model and operations of the DailyJournal
repository (`scripts/generate_daily_summary.py`, `scripts/ai_journal_generator.py`),
together with theorems settling the specification claims about commit-log
parsing, repository discovery, artifact collection and context assembly.

Python strings are modelled as Lean `String`s (a structure over `List Char`),
and the Python string primitives used by the scripts (`split` with and without
`maxsplit`, `strip`, `startswith`, substring membership `in`, `replace`) are
re-implemented below on `List Char` so that every definition is executable and
kernel-reducible.
-/

namespace DailyJournal

/-! ## Python string primitives -/

/-- The characters matched by Python's `str.strip()` and the regex class `\s`
(ASCII fragment): space, tab, newline, carriage return, form feed, vertical tab. -/

def isPySpace (c : Char) : Bool :=
  c = ' ' || c = '\t' || c = '\n' || c = '\r' || c = '\x0c' || c = '\x0b'

/-- Both-ends whitespace strip on a character list (Python `str.strip()`). -/
def stripList (cs : List Char) : List Char :=
  ((cs.dropWhile isPySpace).reverse.dropWhile isPySpace).reverse

/-- Python `str.strip()`. -/
def pyStrip (s : String) : String :=
  ⟨stripList s.data⟩

/-- Python `c in s` for a single character. -/
def hasChar (c : Char) : List Char → Bool
  | [] => false
  | x :: xs => x = c || hasChar c xs

/-- First character test, modelling Python `s.startswith(c)` for a
one-character prefix. -/
def startsWithChar (s : String) (c : Char) : Bool :=
  match s.data with
  | [] => false
  | x :: _ => x = c

/-- Helper for the splitters: prepend a character to the first group. -/
def consHead (c : Char) : List (List Char) → List (List Char)
  | [] => [[c]]
  | g :: gs => (c :: g) :: gs

/-- Python `s.split(sep)` without `maxsplit`, on character lists.
`pySplitAll sep "".data = [[]]`, matching Python `''.split(sep) == ['']`. -/
def pySplitAll (sep : Char) : List Char → List (List Char)
  | [] => [[]]
  | c :: cs =>
    if c = sep then [] :: pySplitAll sep cs
    else consHead c (pySplitAll sep cs)

/-- Python `s.split(sep, maxsplit)` on character lists: at most `maxsplit`
splits are performed, the remainder is returned verbatim as the last field. -/
def pySplitMax (sep : Char) : Nat → List Char → List (List Char)
  | _, [] => [[]]
  | 0, cs => [cs]
  | n + 1, c :: cs =>
    if c = sep then [] :: pySplitMax sep n cs
    else consHead c (pySplitMax sep (n + 1) cs)

/-- Python `s.split('\n')` (the line iteration used by both parsers). -/
def pyLines (s : String) : List String :=
  (pySplitAll '\n' s.data).map String.mk

/-- Python `s.split(sep, maxsplit)` on strings. -/
def pySplitMaxStr (s : String) (sep : Char) (maxsplit : Nat) : List String :=
  (pySplitMax sep maxsplit s.data).map String.mk

/-- Python-style substring containment (`needle in hay`); the empty needle is
contained in everything. -/
def listIsInfix (needle : List Char) : List Char → Bool
  | [] => needle.isEmpty
  | c :: cs => needle.isPrefixOf (c :: cs) || listIsInfix needle cs

/-- Fuel-driven core of Python `str.replace`: replaces non-overlapping
occurrences of `pat` left to right.  The fuel is the length of the subject,
which suffices because each step consumes at least one character. -/
def pyReplaceAux (pat rep : List Char) : Nat → List Char → List Char
  | 0, s => s
  | _ + 1, [] => []
  | fuel + 1, c :: cs =>
    if pat ≠ [] ∧ pat.isPrefixOf (c :: cs) then
      rep ++ pyReplaceAux pat rep fuel ((c :: cs).drop pat.length)
    else
      c :: pyReplaceAux pat rep fuel cs

/-- Python `s.replace(pat, rep)` (for the non-empty patterns used here). -/
def pyReplace (s pat rep : String) : String :=
  ⟨pyReplaceAux pat.data rep.data s.data.length s.data⟩

/-! ## Stat-mode commit parser (`generate_daily_summary.py`, `_parse_git_log`) -/

/-- A per-file change entry of a stat-mode commit (`{'file': …, 'changes': …}`). -/

structure StatFile where
  file : String
  changes : String
deriving DecidableEq

/-- A stat-mode commit record as produced by `_parse_git_log`. -/
structure StatCommit where
  hash : String
  author : String
  time_ago : String
  message : String
  files : List StatFile
deriving DecidableEq

/-- The fields of a pending (accumulating) commit header. -/
structure StatHeader where
  hash : String
  author : String
  time_ago : String
  message : String
deriving DecidableEq

/-- `[+-]?\d+` test at the given position, skipping `\s*` first: used for the
mandatory third capture group of the file-stat regex. -/
def signedNumAhead (cs : List Char) : Bool :=
  match cs.dropWhile isPySpace with
  | [] => false
  | c :: rest =>
    if c = '+' || c = '-' then
      match rest with
      | [] => false
      | d :: _ => d.isDigit
    else c.isDigit

/-- The match of `re.match(r'\s*([^|]+)\s*\|\s*(\d+)\s*([+-]?\d+)\s*([+-]?\d+)?', line)`
followed by the accesses `group(1).strip()` and `group(2)` in `_parse_git_log`.

Derivation from the regex, with Python's leftmost-greedy backtracking:
* group 1 captures everything before the first `|` (the leading `\s*` only
  shifts the group boundary, which `strip()` erases), so the line must contain
  a `|` with at least one character before it;
* after the `|`, `\s*(\d+)` consumes the whitespace and the maximal digit run
  `D` (nonempty, else fail);
* the mandatory group 3 then needs an optionally-signed integer: either one
  follows `D` (after `\s*`), or — by backtracking one digit out of the greedy
  `\d+` — `D` itself has length ≥ 2 and its last digit becomes group 3, in
  which case group 2 is `D` without its last digit;
* group 4 is optional and never affects success.

Returns `group(1).strip()` and `group(2)` on success. -/
def matchFileStat (line : String) : Option (String × String) :=
  match pySplitMax '|' 1 line.data with
  | before :: rest₀ :: _ =>
    if before = [] then none
    else
      let filename : String := ⟨stripList before⟩
      let rest := rest₀.dropWhile isPySpace
      let digits := rest.takeWhile Char.isDigit
      let afterD := rest.drop digits.length
      if digits = [] then none
      else if signedNumAhead afterD then some (filename, ⟨digits⟩)
      else if 2 ≤ digits.length then some (filename, ⟨digits.dropLast⟩)
      else none
  | _ => none

/-- `if not line.strip():` — blank-line test. -/
def isBlankLine (line : String) : Bool :=
  pyStrip line = ""

/-- `if '|' in line and not line.startswith(' '):` — commit-header candidate. -/
def isHeaderCandidate (line : String) : Bool :=
  hasChar '|' line.data && !(startsWithChar line ' ')

/-- `elif line.strip().startswith('|') or '|' in line:` — file-stat candidate. -/
def isStatCandidate (line : String) : Bool :=
  startsWithChar (pyStrip line) '|' || hasChar '|' line.data

/-- A well-formed stat-mode commit header line: a header candidate whose
`split('|', 3)` yields at least 4 fields. -/
def isHeaderLine (line : String) : Bool :=
  isHeaderCandidate line && decide (4 ≤ (pySplitMaxStr line '|' 3).length)

/-- The mutable state of `_parse_git_log`'s loop: the commits emitted so far,
the accumulating commit header (`current_commit`, with its `files` value held
separately as in the source) and the accumulating file list (`current_files`). -/
structure ParseSt where
  commits : List StatCommit
  current : Option StatHeader
  current_files : List StatFile

/-- One iteration of the `for line in log_output.split('\n')` loop of
`_parse_git_log`. -/
def parseLine (st : ParseSt) (line : String) : ParseSt :=
  if isBlankLine line then
    match st.current with
    | some h =>
      { commits := st.commits ++ [⟨h.hash, h.author, h.time_ago, h.message, st.current_files⟩]
        current := none
        current_files := [] }
    | none => st
  else if isHeaderCandidate line then
    let parts := pySplitMaxStr line '|' 3
    if 4 ≤ parts.length then
      { st with
        current := some ⟨parts.getD 0 "", parts.getD 1 "", parts.getD 2 "", parts.getD 3 ""⟩
        current_files := [] }
    else st
  else if isStatCandidate line then
    match matchFileStat line with
    | some (f, c) => { st with current_files := st.current_files ++ [⟨f, c⟩] }
    | none => st
  else st

/-- The trailing flush of `_parse_git_log` (`# Don't forget the last commit`). -/
def finalizeParse (st : ParseSt) : List StatCommit :=
  match st.current with
  | some h => st.commits ++ [⟨h.hash, h.author, h.time_ago, h.message, st.current_files⟩]
  | none => st.commits

/-- Run the stat-mode loop from a given state over a list of lines. -/
def runParse (st : ParseSt) (lines : List String) : List StatCommit :=
  finalizeParse (lines.foldl parseLine st)

/-- `_parse_git_log` (`generate_daily_summary.py:178-223`): the stat-mode
state-machine parser over `log_output.split('\n')`. -/
def parse_git_log (log_output : String) : List StatCommit :=
  runParse ⟨[], none, []⟩ (pyLines log_output)

/-- Whether a pending commit accumulating at the start of `lines` eventually
gets emitted: a blank line or end-of-input is reached before another header
line. -/
def flushesBefore : List String → Bool
  | [] => true
  | l :: ls =>
    if isBlankLine l then true
    else if isHeaderLine l then false
    else flushesBefore ls

/-- The number of well-formed header lines that are followed by a blank line
or end-of-input before any further header line. -/
def flushedHeaderCount : List String → Nat
  | [] => 0
  | l :: ls =>
    (if isHeaderLine l && flushesBefore ls then 1 else 0) + flushedHeaderCount ls

/-- The number of well-formed commit header lines in a stat-mode log text. -/
def headerLineCount (log_output : String) : Nat :=
  ((pyLines log_output).filter isHeaderLine).length

/-! ## Flat-mode commit parser (`ai_journal_generator.py`, `get_git_commits`) -/

/-- A flat-mode commit record as appended by `get_git_commits`
(`ai_journal_generator.py:139-146`). -/

structure FlatCommit where
  hash : String
  author : String
  date : String
  message : String
  body : String
  repo : String
deriving DecidableEq

/-- One iteration of the flat-mode parsing loop
(`ai_journal_generator.py:133-146`):
`if not line or '|' not in line: continue`, then `parts = line.split('|', 4)`,
and a record is appended when `len(parts) >= 4`, with
`body = parts[4] if len(parts) > 4 else ''` and `repo = repo_path.name`. -/
def flatLineRecord (repoName line : String) : Option FlatCommit :=
  if line.data.isEmpty || !(hasChar '|' line.data) then none
  else
    let parts := pySplitMaxStr line '|' 4
    if 4 ≤ parts.length then
      some { hash := parts.getD 0 "", author := parts.getD 1 "", date := parts.getD 2 "",
             message := parts.getD 3 "",
             body := if 4 < parts.length then parts.getD 4 "" else "",
             repo := repoName }
    else none

/-- The flat-mode parsing stage of `get_git_commits`
(`ai_journal_generator.py:132-148`), applied to
`result.stdout.strip().split('\n')`. -/
def parseFlatLog (repoName stdout : String) : List FlatCommit :=
  (pyLines (pyStrip stdout)).filterMap (flatLineRecord repoName)

/-- The declarative skip condition of flat-mode parsing: the line is empty,
lacks the delimiter, or has fewer than 4 delimiter-separated fields. -/
def isDroppedFlatLine (l : String) : Bool :=
  l.data.isEmpty || !(hasChar '|' l.data) || decide ((pySplitAll '|' l.data).length < 4)

/-! ## Repository locator (`find_git_repos`, `_should_exclude`) -/

/-- The wildcard-marker stripping of `_should_exclude`
(`generate_daily_summary.py:77`, identical at `ai_journal_generator.py:437`):
`pattern.replace("**/", "").replace("/**", "")`. -/

def stripWildcards (pattern : String) : String :=
  pyReplace (pyReplace pattern "**/" "") "/**" ""

/-- `_should_exclude` (`generate_daily_summary.py:72-79` and
`ai_journal_generator.py:433-439`): a path is excluded when the stripped form
of any exclusion pattern occurs as a substring of the path string. -/
def should_exclude (exclude_patterns : List String) (path_str : String) : Bool :=
  exclude_patterns.any (fun pattern => listIsInfix (stripWildcards pattern).data path_str.data)

/-- Non-empty, non-`.` components of a path string (the normalization
`pathlib.Path` applies before exposing `.name` and `.parent`). -/
def pathComponents (p : String) : List String :=
  ((pySplitAll '/' p.data).map String.mk).filter (fun s => !(s = "") && !(s = "."))

/-- Join path components with `/`. -/
def joinPath : List String → String
  | [] => ""
  | [x] => x
  | x :: xs => x ++ "/" ++ joinPath xs

/-- `pathlib.Path(p).parent` on the string representation. -/
def pathParent (p : String) : String :=
  let comps := pathComponents p
  match comps.dropLast with
  | [] => if startsWithChar p '/' then "/" else "."
  | par => (if startsWithChar p '/' then "/" else "") ++ joinPath par

/-- `pathlib.Path(p).name`: the final path component. -/
def pathName (p : String) : String :=
  (pathComponents p).getLastD ""

/-- The locator's exclusion configuration: `config["exclude_patterns"]` and
`config.get("exclude_projects", [])`. -/
structure LocatorConfig where
  exclude_patterns : List String
  exclude_projects : List String

/-- The two discovery branches of `find_git_repos`
(`generate_daily_summary.py:92-116`): either the external `find` command
returns its stdout, or it times out and a Python `os.walk` fallback supplies
the directories that contain a `.git` entry (the walk stops descending once a
repository root is found; the visited roots are the parameter). -/
inductive FindOutcome
  | ok (stdout : String)
  | timeout (walkGitRoots : List String)

/-- The repositories accumulated before the `exclude_projects` filter:
`find` branch — each non-empty stdout line names a `.git` directory whose
parent is kept unless `_should_exclude`; walk branch — each root containing
`.git` is kept unless `_should_exclude`. -/
def locatorCandidates (cfg : LocatorConfig) (d : FindOutcome) : List String :=
  match d with
  | .ok stdout =>
    (((pyLines (pyStrip stdout)).filter (fun gd => !(gd = ""))).map pathParent).filter
      (fun rp => !(should_exclude cfg.exclude_patterns rp))
  | .timeout walkGitRoots =>
    walkGitRoots.filter (fun rp => !(should_exclude cfg.exclude_patterns rp))

/-- `find_git_repos` (`generate_daily_summary.py:81-123`): discovery followed
by the `exclude_projects` name filter
(`repos = [r for r in repos if r.name not in excluded]`). -/
def find_git_repos (cfg : LocatorConfig) (d : FindOutcome) : List String :=
  (locatorCandidates cfg d).filter (fun r => !(cfg.exclude_projects.contains (pathName r)))

/-! ## Commit-count cap (`max_commits_per_repo`) in the git log commands -/

/-- Python `list.insert(-2, x)`: inserts `x` before the second-to-last
element. -/

def pyInsertNeg2 (cmd : List String) (x : String) : List String :=
  cmd.take (cmd.length - 2) ++ [x] ++ cmd.drop (cmd.length - 2)

/-- The `git log` command built by `get_git_commits`
(`generate_daily_summary.py:138-153`): the base command, the optional
`--until` inserted at position `-2`, then
`max_commits = self.config.get("max_commits_per_repo", 50)` and
`if max_commits: cmd.extend(["-n", str(max_commits)])` — the `-n` cap is
appended only when the configured value is truthy (non-zero). -/
def gds_git_log_cmd (since_date : String) (until_date : Option String)
    (max_commits_cfg : Option Int) : List String :=
  let cmd := ["git", "log", "--since=" ++ since_date ++ " 00:00:00", "--all",
              "--pretty=format:%h|%an|%ar|%s", "--stat", "--no-merges"]
  let cmd := match until_date with
    | some u => pyInsertNeg2 cmd ("--until=" ++ u ++ " 23:59:59")
    | none => cmd
  let max_commits := max_commits_cfg.getD 50
  if max_commits ≠ 0 then cmd ++ ["-n", toString max_commits] else cmd

/-- The `git log` command built by `get_git_commits`
(`ai_journal_generator.py:106-120`); same cap logic as the summary variant. -/
def aij_git_log_cmd (since_date : String) (until_date : Option String)
    (max_commits_cfg : Option Int) : List String :=
  let cmd := ["git", "log", "--since=" ++ since_date ++ " 00:00:00", "--all",
              "--pretty=format:%h|%an|%ad|%s|%b", "--date=iso", "--no-merges"]
  let cmd := match until_date with
    | some u => pyInsertNeg2 cmd ("--until=" ++ u ++ " 23:59:59")
    | none => cmd
  let max_commits := max_commits_cfg.getD 50
  if max_commits ≠ 0 then cmd ++ ["-n", toString max_commits] else cmd

/-- The commit-count limit a command passes to git: the argument following the
first `-n` flag, if any. -/
def nFlagArg : List String → Option String
  | [] => none
  | a :: rest => if a = "-n" then rest.head? else nFlagArg rest

/-- Modelled from the version-control query interface (spec §6): git returns
the matching commits capped at the `-n` argument when one is passed, and all
of them otherwise. -/
def gitLogModel (cmd : List String) (available : List String) : List String :=
  match nFlagArg cmd with
  | some s => available.take ((s.toNat?).getD 0)
  | none => available

/-! ## Commit extractor control flow (`get_git_commits` in both scripts) -/

/-- The Python exceptions the extractor bodies can raise, as the handlers
distinguish them: `subprocess.TimeoutExpired`, other `subprocess.SubprocessError`s,
and every other `Exception` (e.g. `OSError` from `os.chdir`). -/

inductive PyExc
  | timeout
  | subprocessErr
  | other
deriving DecidableEq

/-- The observable outcome of one extraction attempt: `subprocess.run`
returned (with an exit code and stdout), or one of the exception paths was
taken. -/
inductive GitOutcome
  | run (returncode : Int) (stdout : String)
  | timeoutExpired
  | subprocessError
  | chdirError
  | otherError

/-- The `try` body of `get_git_commits` (`generate_daily_summary.py:134-167`)
as an exception-transparent computation: non-zero exit returns `[]`, success
parses stat-mode output, every exception path surfaces as `.error`. -/
def gds_git_body (outcome : GitOutcome) : Except PyExc (List StatCommit) :=
  match outcome with
  | .run rc stdout => if rc ≠ 0 then .ok [] else .ok (parse_git_log stdout)
  | .timeoutExpired => .error .timeout
  | .subprocessError => .error .subprocessErr
  | .chdirError => .error .other
  | .otherError => .error .other

/-- The handler chain of `generate_daily_summary.py:169-174`:
`except (subprocess.TimeoutExpired, subprocess.SubprocessError)` returns `[]`
(with a warning print), and `except Exception` returns `[]` likewise. -/
def gds_handle (r : Except PyExc (List StatCommit)) : Except PyExc (List StatCommit) :=
  match r with
  | .ok cs => .ok cs
  | .error .timeout => .ok []
  | .error .subprocessErr => .ok []
  | .error .other => .ok []

/-- `get_git_commits` (`generate_daily_summary.py:125-176`): a cache hit
(`self._git_cache`) returns the memoized list before the `try` block;
otherwise the body runs under the handler chain. -/
def gds_get_git_commits (cache : Option (List StatCommit)) (outcome : GitOutcome) :
    Except PyExc (List StatCommit) :=
  match cache with
  | some cs => .ok cs
  | none => gds_handle (gds_git_body outcome)

/-- The `try` body of `get_git_commits` (`ai_journal_generator.py:103-148`):
non-zero exit returns `[]`, success parses flat-mode output. -/
def aij_git_body (repoName : String) (outcome : GitOutcome) :
    Except PyExc (List FlatCommit) :=
  match outcome with
  | .run rc stdout => if rc ≠ 0 then .ok [] else .ok (parseFlatLog repoName stdout)
  | .timeoutExpired => .error .timeout
  | .subprocessError => .error .subprocessErr
  | .chdirError => .error .other
  | .otherError => .error .other

/-- The single `except Exception` handler of `ai_journal_generator.py:150-152`
(`subprocess.TimeoutExpired` is an `Exception` subclass, so it is caught
here too): every exception becomes `[]`. -/
def aij_handle (r : Except PyExc (List FlatCommit)) : Except PyExc (List FlatCommit) :=
  match r with
  | .ok cs => .ok cs
  | .error _ => .ok []

/-- `get_git_commits` (`ai_journal_generator.py:101-154`); no cache. -/
def aij_get_git_commits (repoName : String) (outcome : GitOutcome) :
    Except PyExc (List FlatCommit) :=
  aij_handle (aij_git_body repoName outcome)

/-- The failure outcomes named by the claim: non-zero tool exit, timeout, or
any other exception. -/
def isGitFailure : GitOutcome → Bool
  | .run rc _ => rc ≠ 0
  | _ => true

/-! ## Working-directory restoration (C5) -/

/-- The `finally: os.chdir(self.workspace_root)` clause: whatever the body
produced and wherever it left the current directory, the final state is the
workspace root (the workspace root is assumed to exist, as it did at
startup). -/

def pyFinallyChdir {α : Type} (workspace_root : String) (st : α × String) :
    α × String :=
  (st.1, workspace_root)

/-- `get_git_commits` (`generate_daily_summary.py:125-176`) with the
process-wide current working directory threaded explicitly: a cache hit
returns before any `chdir`; otherwise `os.chdir(repo_path)` runs (leaving the
directory unchanged if it raises), the body executes under the handlers, and
the `finally` clause restores the workspace root on every path. -/
def gds_commits_cwd (workspace_root repo_path : String)
    (cache : Option (List StatCommit)) (outcome : GitOutcome) (cwd : String) :
    Except PyExc (List StatCommit) × String :=
  match cache with
  | some cs => (.ok cs, cwd)
  | none =>
    let afterChdir : String :=
      match outcome with
      | .chdirError => cwd
      | _ => repo_path
    pyFinallyChdir workspace_root (gds_handle (gds_git_body outcome), afterChdir)

/-- `get_git_commits` (`ai_journal_generator.py:101-154`) with the working
directory threaded explicitly; no cache. -/
def aij_commits_cwd (workspace_root repo_path repoName : String)
    (outcome : GitOutcome) (cwd : String) :
    Except PyExc (List FlatCommit) × String :=
  let afterChdir : String :=
    match outcome with
    | .chdirError => cwd
    | _ => repo_path
  pyFinallyChdir workspace_root (aij_handle (aij_git_body repoName outcome), afterChdir)

/-- The outcome of the `git status --porcelain` call inside
`get_file_modifications`. -/
inductive StatusOutcome
  | run (returncode : Int) (stdout : String)
  | chdirError
  | otherError

/-- The working-directory effect of `get_file_modifications`
(`generate_daily_summary.py:290-332`): `try: os.chdir(repo_path) …`,
`except Exception` swallows, `finally: os.chdir(self.workspace_root)`. -/
def gds_file_mods_cwd (workspace_root repo_path : String)
    (outcome : StatusOutcome) (cwd : String) : String :=
  let afterChdir : String :=
    match outcome with
    | .chdirError => cwd
    | _ => repo_path
  (pyFinallyChdir workspace_root ((), afterChdir)).2

/-! ## AI-activity collector (`get_cursor_activity`, `ai_journal_generator.py:180-225`) -/

/-- A row of the `ai_code_hashes` table
(`hash, source, fileName, fileExtension, timestamp, conversationId`); the
timestamp is in milliseconds. -/

structure AIRow where
  hash : String
  source : String
  fileName : String
  fileExtension : String
  timestamp : Int
  conversationId : String
deriving DecidableEq

/-- The outcome of the sqlite interaction: the query returned rows, or some
step (connect, execute, fetch) raised and the `except` clause ran before any
row was appended. -/
inductive StoreOutcome
  | rows (rs : List AIRow)
  | readError

/-- The shape `get_cursor_activity` returns: the bare `{}` when the store is
absent or the feature flag is off, or the populated activity dictionary. -/
inductive CursorActivity
  | emptyDict
  | bundle (code_generated : List AIRow) (files_touched : List String)
      (conversations : List String)
deriving DecidableEq

/-- Insert a row into a list sorted by descending timestamp. -/
def insertDescRow (r : AIRow) : List AIRow → List AIRow
  | [] => [r]
  | x :: xs => if x.timestamp ≤ r.timestamp then r :: x :: xs else x :: insertDescRow r xs

/-- Sort rows by descending timestamp (insertion sort). -/
def sortDescRows : List AIRow → List AIRow
  | [] => []
  | r :: rs => insertDescRow r (sortDescRows rs)

/-- Modelled from the SQL query at `ai_journal_generator.py:200-205`
(external sqlite semantics):
`SELECT … FROM ai_code_hashes WHERE timestamp >= ? AND timestamp < ?
ORDER BY timestamp DESC` — the rows whose millisecond timestamp lies in the
half-open interval `[loMs, hiMs)`, most recent first (tie order is not
guaranteed by sqlite; this model fixes one). -/
def queryRowsInRange (rs : List AIRow) (loMs hiMs : Int) : List AIRow :=
  sortDescRows (rs.filter (fun r => decide (loMs ≤ r.timestamp ∧ r.timestamp < hiMs)))

/-- First-occurrence deduplication with an explicit seen accumulator. -/
def dedupFirstAux (seen : List String) : List String → List String
  | [] => []
  | x :: xs =>
    if seen.contains x then dedupFirstAux seen xs
    else x :: dedupFirstAux (seen ++ [x]) xs

/-- The `files_touched` set of `get_cursor_activity`
(`if row[2]: activity['files_touched'].add(row[2])`, then `list(…)`): the
distinct non-empty file names of the selected rows.  Python's `set` iteration
order is unspecified; this model fixes first-occurrence order, and only
membership is meaningful. -/
def filesTouched (sel : List AIRow) : List String :=
  dedupFirstAux [] (sel.filterMap (fun r => if r.fileName = "" then none else some r.fileName))

/-- `get_cursor_activity` (`ai_journal_generator.py:180-225`): returns `{}`
when the tracking store is absent or `use_cursor_logs` is off; on a read
error the accumulating activity dictionary (still empty) is returned; with
`start_ts = int(target_dt.timestamp())` and
`end_ts = int((target_dt + timedelta(days=1)).timestamp())` the query bounds
are `start_ts * 1000` and `end_ts * 1000`. -/
def get_cursor_activity (dbExists use_cursor_logs : Bool) (store : StoreOutcome)
    (start_ts end_ts : Int) : CursorActivity :=
  if !dbExists || !use_cursor_logs then .emptyDict
  else
    match store with
    | .readError => .bundle [] [] []
    | .rows rs =>
      let sel := queryRowsInRange rs (start_ts * 1000) (end_ts * 1000)
      .bundle sel (filesTouched sel) []

/-- Demonstration store for the activity-collector witness: two rows inside
the first local day, one after it, one before the epoch. -/
def cursorDemoRows : List AIRow :=
  [⟨"h1", "tab", "a.py", "py", 100, "c1"⟩,
   ⟨"h2", "chat", "b.py", "py", 5000, "c2"⟩,
   ⟨"h3", "tab", "c.py", "py", 86400000, "c3"⟩,
   ⟨"h4", "tab", "", "py", -5, "c4"⟩]

/-! ## Context assembler (`_prepare_ai_context`, `ai_journal_generator.py:289-309`) -/

/-- A plan entry collected by `get_cursor_plans`
(`ai_journal_generator.py:169-174`). -/

structure PlanEntry where
  file : String
  path : String
  content : String
  modified : String
deriving DecidableEq

/-- One step of the grouping loop: append the commit to its repository's
list, or open a new group at the end (Python dicts preserve insertion
order). -/
def upsertCommit (m : List (String × List FlatCommit)) (k : String) (c : FlatCommit) :
    List (String × List FlatCommit) :=
  match m with
  | [] => [(k, [c])]
  | (k', l) :: rest =>
    if k' = k then (k', l ++ [c]) :: rest else (k', l) :: upsertCommit rest k c

/-- The grouping loop of `_prepare_ai_context`
(`ai_journal_generator.py:294-299`).  Every record built by `get_git_commits`
carries its `repo` key, so `commit.get('repo', 'unknown')` is the total field
access `c.repo`. -/
def groupCommitsByRepo (commits : List FlatCommit) : List (String × List FlatCommit) :=
  commits.foldl (fun m c => upsertCommit m c.repo c) []

/-- The aggregated context dictionary returned by `_prepare_ai_context`. -/
structure AIContext where
  date : String
  commits : List FlatCommit
  commits_by_repo : List (String × List FlatCommit)
  total_commits : Nat
  cursor_plans : List PlanEntry
  cursor_activity : CursorActivity
  workspace : String

/-- `_prepare_ai_context` (`ai_journal_generator.py:289-309`). -/
def prepare_ai_context (date : String) (commits : List FlatCommit)
    (plans : List PlanEntry) (cursor_activity : CursorActivity)
    (workspace : String) : AIContext :=
  { date := date
    commits := commits
    commits_by_repo := groupCommitsByRepo commits
    total_commits := commits.length
    cursor_plans := plans
    cursor_activity := cursor_activity
    workspace := workspace }

/-- The repository names of a grouping, in iteration order. -/
def groupKeys (m : List (String × List FlatCommit)) : List String :=
  m.map Prod.fst

/-- The total number of commits held by a grouping. -/
def groupSizeSum (m : List (String × List FlatCommit)) : Nat :=
  (m.map (fun p => p.2.length)).sum

/-- The group of a repository name (the empty list when absent). -/
def lookupGroup (m : List (String × List FlatCommit)) (k : String) : List FlatCommit :=
  match m with
  | [] => []
  | (k', l) :: rest => if k' = k then l else lookupGroup rest k

/-- First occurrences of names relative to an already-seen list. -/
def firstOccurAux (seen : List String) : List String → List String
  | [] => []
  | x :: xs =>
    if x ∈ seen then firstOccurAux seen xs
    else x :: firstOccurAux (seen ++ [x]) xs

/-- First-occurrence order of a name sequence. -/
def firstOccurrences (l : List String) : List String :=
  firstOccurAux [] l

/-! ## Plan collectors (`get_cursor_plans` in both scripts) -/

/-- The calendar day (epoch-day index) of a timestamp in seconds: the model
of `datetime.fromtimestamp(ts).date()` with the local timezone taken as the
epoch reference. -/

def epochDay (ts_sec : Int) : Int :=
  ts_sec / 86400

/-- Modelled from the external `find "<plans_dir>" -type f -name "*.plan.md"
-mtime -1` invocation at `generate_daily_summary.py:239-244`: `-mtime -1`
selects files whose modification age relative to the current wall-clock time
is under 24 hours.  The `target_date` argument of `get_cursor_plans` plays no
part in the filter. -/
def gds_plan_mtime_filter (now mtime_sec : Int) : Bool :=
  now - mtime_sec < 86400

/-- The selection performed by `get_cursor_plans`
(`generate_daily_summary.py:225-270`) over a directory listing of
`*.plan.md` files with their modification times: the `find -mtime -1` output,
independent of the requested target day. -/
def gds_selected_plans (_target_day : Int) (now : Int)
    (files : List (String × Int)) : List String :=
  (files.filter (fun f => gds_plan_mtime_filter now f.2)).map Prod.fst

/-- The selection performed by `get_cursor_plans`
(`ai_journal_generator.py:156-178`): files whose modification timestamp falls
on the target calendar day
(`datetime.fromtimestamp(plan_file.stat().st_mtime).date() == target_dt.date()`). -/
def aij_selected_plans (target_day : Int) (files : List (String × Int)) : List String :=
  (files.filter (fun f => decide (epochDay f.2 = target_day))).map Prod.fst

/-! ### Stat-mode counting lemmas -/

theorem hasChar_append (c : Char) (a b : List Char) :
    hasChar c (a ++ b) = (hasChar c a || hasChar c b) := by
  induction a with
  | nil => simp [hasChar]
  | cons x xs ih => simp [hasChar, ih, Bool.or_assoc]

theorem hasChar_reverse (c : Char) (cs : List Char) :
    hasChar c cs.reverse = hasChar c cs := by
  induction cs with
  | nil => rfl
  | cons x xs ih =>
    simp [List.reverse_cons, hasChar_append, ih, hasChar, Bool.or_comm]

theorem hasChar_dropWhile (c : Char) (p : Char → Bool) (hc : p c = false) (cs : List Char)
    (h : hasChar c cs = true) : hasChar c (cs.dropWhile p) = true := by
  induction cs with
  | nil => simp [hasChar] at h
  | cons x xs ih =>
    by_cases hx : p x = true
    · rw [List.dropWhile_cons_of_pos hx]
      have h' : x = c ∨ hasChar c xs = true := by simpa [hasChar] using h
      rcases h' with h1 | h2
      · exact absurd hx (by simp [h1, hc])
      · exact ih h2
    · rw [List.dropWhile_cons_of_neg hx]
      simpa [hasChar] using h

theorem hasChar_stripList (c : Char) (hc : isPySpace c = false) (cs : List Char)
    (h : hasChar c cs = true) : hasChar c (stripList cs) = true := by
  unfold stripList
  rw [hasChar_reverse]
  exact hasChar_dropWhile c isPySpace hc _ (by rw [hasChar_reverse]; exact hasChar_dropWhile c isPySpace hc cs h)

/-- A blank line (in the sense of `line.strip() == ''`) contains no `|`. -/
theorem blank_no_pipe (l : String) (hb : isBlankLine l = true) :
    hasChar '|' l.data = false := by
  by_contra h
  have hp : hasChar '|' l.data = true := by
    cases hh : hasChar '|' l.data
    · exact absurd hh h
    · rfl
  have hstrip : stripList l.data = [] := by
    have : pyStrip l = "" := by simpa [isBlankLine] using hb
    simpa [pyStrip, String.ext_iff] using this
  have := hasChar_stripList '|' (by decide) l.data hp
  rw [hstrip] at this
  simp [hasChar] at this

theorem blank_not_header (l : String) (hb : isBlankLine l = true) :
    isHeaderCandidate l = false := by
  simp [isHeaderCandidate, blank_no_pipe l hb]

/-- The stat-line and ignored-line branches of the loop touch neither the
emitted commits nor the accumulating header. -/
theorem parseLine_other (st : ParseSt) (l : String)
    (hb : isBlankLine l = false) (hh : isHeaderCandidate l = false) :
    (parseLine st l).commits = st.commits ∧ (parseLine st l).current = st.current := by
  unfold parseLine
  rw [hb, hh]
  simp only [Bool.false_eq_true, if_false]
  by_cases hs : isStatCandidate l = true
  · rw [hs]
    simp only [if_true]
    cases matchFileStat l with
    | none => exact ⟨rfl, rfl⟩
    | some fc => exact ⟨rfl, rfl⟩
  · rw [Bool.not_eq_true] at hs
    rw [hs]
    simp

/-- Loop invariant for `_parse_git_log`: starting from any state, the number
of commits in the final output is the number already emitted, plus one for the
pending commit when a blank line or end-of-input arrives before the next
header line, plus the flushed-header count of the remaining lines. -/
theorem runParse_length (lines : List String) : ∀ st : ParseSt,
    (runParse st lines).length =
      st.commits.length + (if st.current.isSome && flushesBefore lines then 1 else 0) +
        flushedHeaderCount lines := by
  induction lines with
  | nil =>
    intro st
    obtain ⟨cs, cur, fs⟩ := st
    cases cur <;> simp [runParse, finalizeParse, flushesBefore, flushedHeaderCount]
  | cons l ls ih =>
    intro st
    have hstep : runParse st (l :: ls) = runParse (parseLine st l) ls := rfl
    by_cases hb : isBlankLine l = true
    · have hnh : isHeaderLine l = false := by
        simp [isHeaderLine, blank_not_header l hb]
      obtain ⟨cs, cur, fs⟩ := st
      cases cur with
      | some h =>
        rw [hstep, ih]
        simp [parseLine, hb, flushesBefore, flushedHeaderCount, hnh]
      | none =>
        rw [hstep, ih]
        simp [parseLine, hb, flushesBefore, flushedHeaderCount, hnh]
    · rw [Bool.not_eq_true] at hb
      by_cases hh : isHeaderCandidate l = true
      · by_cases h4 : 4 ≤ (pySplitMaxStr l '|' 3).length
        · have hdr : isHeaderLine l = true := by simp [isHeaderLine, hh, h4]
          rw [hstep, ih]
          simp [parseLine, hb, hh, h4, flushesBefore, flushedHeaderCount, hdr]
          omega
        · have hdr : isHeaderLine l = false := by simp [isHeaderLine, h4]
          rw [hstep, ih]
          simp [parseLine, hb, hh, h4, flushesBefore, flushedHeaderCount, hdr]
      · rw [Bool.not_eq_true] at hh
        have hdr : isHeaderLine l = false := by simp [isHeaderLine, hh]
        obtain ⟨hcom, hcur⟩ := parseLine_other st l hb hh
        rw [hstep, ih, hcom, hcur]
        simp [flushesBefore, flushedHeaderCount, hb, hdr]

/-- C1 (counterexample): in stat-mode parsing it is NOT the case that every
well-formed commit header line yields one emitted commit record.  On the input
`"a|b|c|d\ne|f|g|h"` — two consecutive well-formed header lines with no blank
line between them — the parser emits a single commit record (the second header
overwrites the still-accumulating first commit without emitting it), so the
emitted-record count 1 differs from the header-line count 2. -/
theorem stat_mode_count_counterexample :
    ¬ ((parse_git_log "a|b|c|d\ne|f|g|h").length =
        headerLineCount "a|b|c|d\ne|f|g|h") ∧
      parse_git_log "a|b|c|d\ne|f|g|h" = [⟨"e", "f", "g", "h", []⟩] := by
  constructor
  · decide
  · decide

/-- C1 (amended): in stat-mode parsing, a header line encountered while a
previous commit is still accumulating replaces (discards) that prior commit
without emitting it, and a pending accumulating commit at end-of-input is
flushed; consequently, for every stat-mode log text the number of emitted
commit records equals the number of well-formed header lines that are followed
by a blank line or end-of-input before any further header line. -/
theorem stat_mode_commit_count (log_output : String) :
    (parse_git_log log_output).length = flushedHeaderCount (pyLines log_output) := by
  unfold parse_git_log
  rw [runParse_length]
  simp

/-! ### Flat-mode counting lemmas -/

theorem consHead_ne_nil (c : Char) (l : List (List Char)) : consHead c l ≠ [] := by
  cases l <;> simp [consHead]

theorem length_consHead (c : Char) (l : List (List Char)) (h : l ≠ []) :
    (consHead c l).length = l.length := by
  cases l with
  | nil => exact absurd rfl h
  | cons g gs => simp [consHead]

theorem pySplitAll_ne_nil (sep : Char) (cs : List Char) : pySplitAll sep cs ≠ [] := by
  cases cs with
  | nil => simp [pySplitAll]
  | cons c cs =>
    by_cases h : c = sep <;> simp [pySplitAll, h, consHead_ne_nil]

theorem pySplitMax_ne_nil (sep : Char) (n : Nat) (cs : List Char) :
    pySplitMax sep n cs ≠ [] := by
  cases cs with
  | nil => cases n <;> simp [pySplitMax]
  | cons c cs =>
    cases n with
    | zero => simp [pySplitMax]
    | succ n => by_cases h : c = sep <;> simp [pySplitMax, h, consHead_ne_nil]

/-- The number of fields produced by `split(sep, maxsplit)` is the unbounded
field count clipped at `maxsplit + 1`. -/
theorem length_pySplitMax (sep : Char) (cs : List Char) : ∀ n : Nat,
    (pySplitMax sep n cs).length = min ((pySplitAll sep cs).length) (n + 1) := by
  induction cs with
  | nil => intro n; simp [pySplitMax, pySplitAll]
  | cons c cs ih =>
    intro n
    cases n with
    | zero =>
      have hpos : 0 < (pySplitAll sep (c :: cs)).length :=
        List.length_pos.mpr (pySplitAll_ne_nil sep (c :: cs))
      simp [pySplitMax]
      omega
    | succ n =>
      by_cases h : c = sep
      · simp [pySplitMax, pySplitAll, h, ih n]
        omega
      · have h1 : (pySplitMax sep (n + 1) (c :: cs)).length =
            (pySplitMax sep (n + 1) cs).length := by
          simp only [pySplitMax, if_neg h]
          exact length_consHead c _ (pySplitMax_ne_nil sep (n + 1) cs)
        have h2 : (pySplitAll sep (c :: cs)).length = (pySplitAll sep cs).length := by
          simp only [pySplitAll, if_neg h]
          exact length_consHead c _ (pySplitAll_ne_nil sep cs)
        rw [h1, h2, ih (n + 1)]

theorem length_filterMap_add_filter {α β : Type} (f : α → Option β) (l : List α) :
    (l.filterMap f).length + (l.filter (fun x => (f x).isNone)).length = l.length := by
  induction l with
  | nil => rfl
  | cons x xs ih =>
    cases hfx : f x <;>
      simp [List.filterMap_cons, List.filter_cons, hfx] <;> omega

/-- A flat-mode line produces no record exactly when the declarative skip
condition holds. -/
theorem flatLineRecord_isNone (repoName l : String) :
    (flatLineRecord repoName l).isNone = isDroppedFlatLine l := by
  by_cases h1 : (l.data.isEmpty || !(hasChar '|' l.data)) = true
  · simp [flatLineRecord, isDroppedFlatLine, h1]
  · have hlen : (pySplitMaxStr l '|' 4).length =
        min ((pySplitAll '|' l.data).length) 5 := by
      simp [pySplitMaxStr, length_pySplitMax]
    by_cases h4 : 4 ≤ (pySplitMaxStr l '|' 4).length
    · have : ¬ ((pySplitAll '|' l.data).length < 4) := by omega
      simp [flatLineRecord, isDroppedFlatLine, h1, h4, this]
    · have : (pySplitAll '|' l.data).length < 4 := by omega
      simp [flatLineRecord, isDroppedFlatLine, h1, h4, this]

/-- C2: flat-mode parsing splits each line on the first four delimiters only
(the body keeps any further delimiters), silently skips lines that are empty,
lack the delimiter, or have fewer than 4 delimiter-separated fields, and the
parsed-record count equals the input-line count minus the dropped-line count.
In particular `"abc123|Jane|2024-01-01|Fix bug|"` yields a single record with
hash `abc123`, author `Jane`, message `Fix bug` and empty body. -/
theorem flat_mode_parse (repoName stdout : String) :
    (parseFlatLog repoName stdout).length =
        (pyLines (pyStrip stdout)).length -
          ((pyLines (pyStrip stdout)).filter isDroppedFlatLine).length
    ∧ (∀ l : String,
        (l = "" ∨ hasChar '|' l.data = false ∨ (pySplitAll '|' l.data).length < 4) →
          flatLineRecord repoName l = none)
    ∧ parseFlatLog repoName "abc123|Jane|2024-01-01|Fix bug|" =
        [⟨"abc123", "Jane", "2024-01-01", "Fix bug", "", repoName⟩]
    ∧ parseFlatLog repoName "h1|Jo|2024-02-02|Subject|first|second|third" =
        [⟨"h1", "Jo", "2024-02-02", "Subject", "first|second|third", repoName⟩] := by
  refine ⟨?_, ?_, rfl, rfl⟩
  · have hfil : (pyLines (pyStrip stdout)).filter
        (fun x => (flatLineRecord repoName x).isNone) =
        (pyLines (pyStrip stdout)).filter isDroppedFlatLine := by
      apply List.filter_congr
      intro x _
      rw [flatLineRecord_isNone]
    have := length_filterMap_add_filter (flatLineRecord repoName) (pyLines (pyStrip stdout))
    rw [hfil] at this
    unfold parseFlatLog
    omega
  · intro l hl
    have : isDroppedFlatLine l = true := by
      rcases hl with h | h | h
      · simp [isDroppedFlatLine, h]
      · simp [isDroppedFlatLine, h]
      · simp [isDroppedFlatLine, h]
    have hnone := flatLineRecord_isNone repoName l
    rw [this] at hnone
    exact Option.eq_none_of_isNone hnone

/-- Closed instance of `flat_mode_parse`: the spec's concrete example line and
a dropped two-field line, at a concrete repository name. -/
theorem flat_mode_parse_witness :
    parseFlatLog "myrepo" "abc123|Jane|2024-01-01|Fix bug|" =
        [⟨"abc123", "Jane", "2024-01-01", "Fix bug", "", "myrepo"⟩]
    ∧ flatLineRecord "myrepo" "only|two|fields" = none := by
  refine ⟨(flat_mode_parse "myrepo" "").2.2.1, ?_⟩
  exact (flat_mode_parse "myrepo" "").2.1 "only|two|fields" (by decide)

/-! ### Locator lemmas -/

theorem listIsInfix_nil (hay : List Char) : listIsInfix [] hay = true := by
  cases hay <;> simp [listIsInfix, List.isPrefixOf]

theorem filter_false_eq_nil {α : Type} {p : α → Bool} (h : ∀ a, p a = false)
    (l : List α) : l.filter p = [] := by
  induction l with
  | nil => rfl
  | cons x xs ih => simp [List.filter_cons, h x, ih]

theorem should_exclude_false_forall (pats : List String) (p : String)
    (h : should_exclude pats p = false) :
    ∀ pat ∈ pats, listIsInfix (stripWildcards pat).data p.data = false := by
  intro pat hmem
  by_contra hne
  have htrue : listIsInfix (stripWildcards pat).data p.data = true := by
    cases hx : listIsInfix (stripWildcards pat).data p.data
    · exact absurd hx hne
    · rfl
  have : should_exclude pats p = true :=
    List.any_eq_true.mpr ⟨pat, hmem, htrue⟩
  rw [this] at h
  exact absurd h (by simp)

/-- C6: for any input directory tree (either discovery branch) and any
configuration, `find_git_repos` never returns a path whose final name is in
`exclude_projects`, and never returns a path containing any exclusion pattern
as a substring after the `**/` and `/**` wildcard markers are stripped. -/
theorem repo_locator_exclusions (cfg : LocatorConfig) (d : FindOutcome) (r : String)
    (hr : r ∈ find_git_repos cfg d) :
    cfg.exclude_projects.contains (pathName r) = false
    ∧ ∀ pat ∈ cfg.exclude_patterns,
        listIsInfix (stripWildcards pat).data r.data = false := by
  unfold find_git_repos at hr
  rw [List.mem_filter] at hr
  obtain ⟨hcand, hname⟩ := hr
  refine ⟨by simpa using hname, ?_⟩
  have hexc : should_exclude cfg.exclude_patterns r = false := by
    cases d with
    | ok stdout =>
      simp only [locatorCandidates, List.mem_filter] at hcand
      simpa using hcand.2
    | timeout walkGitRoots =>
      simp only [locatorCandidates, List.mem_filter] at hcand
      simpa using hcand.2
  exact should_exclude_false_forall _ _ hexc

/-- Closed instance of `repo_locator_exclusions`: with one wildcard pattern
and one excluded project name, a surviving repository path satisfies both
exclusion properties. -/
theorem repo_locator_exclusions_witness :
    find_git_repos ⟨["**/node_modules/**"], ["old"]⟩ (.ok "/w/a/.git\n") = ["/w/a"]
    ∧ (⟨["**/node_modules/**"], ["old"]⟩ : LocatorConfig).exclude_projects.contains
        (pathName "/w/a") = false
    ∧ ∀ pat ∈ (⟨["**/node_modules/**"], ["old"]⟩ : LocatorConfig).exclude_patterns,
        listIsInfix (stripWildcards pat).data ("/w/a" : String).data = false := by
  have h := repo_locator_exclusions ⟨["**/node_modules/**"], ["old"]⟩
    (.ok "/w/a/.git\n") "/w/a" (by decide)
  exact ⟨by decide, h.1, h.2⟩

/-- C9: if any exclusion pattern strips to the empty string (for example
`"**/"` or `""`), then `_should_exclude` returns `true` for every path and
repository discovery returns zero repositories for every workspace, under
both discovery branches. -/
theorem empty_pattern_excludes_all (cfg : LocatorConfig)
    (h : ∃ pat ∈ cfg.exclude_patterns, stripWildcards pat = "") :
    (∀ p : String, should_exclude cfg.exclude_patterns p = true)
    ∧ ∀ d : FindOutcome, find_git_repos cfg d = [] := by
  obtain ⟨pat, hmem, hstrip⟩ := h
  have hdata : (stripWildcards pat).data = [] := by
    rw [hstrip]
  have hall : ∀ p : String, should_exclude cfg.exclude_patterns p = true := by
    intro p
    exact List.any_eq_true.mpr ⟨pat, hmem, by rw [hdata]; exact listIsInfix_nil p.data⟩
  refine ⟨hall, ?_⟩
  intro d
  have hcand : locatorCandidates cfg d = [] := by
    cases d with
    | ok stdout =>
      exact filter_false_eq_nil (fun a => by rw [hall a]; rfl) _
    | timeout walkGitRoots =>
      exact filter_false_eq_nil (fun a => by rw [hall a]; rfl) _
  unfold find_git_repos
  rw [hcand]
  rfl

/-- Closed instance of `empty_pattern_excludes_all`: the pattern `"**/"`
strips to the empty string, so every path is excluded and discovery finds
nothing even though the workspace contains a repository. -/
theorem empty_pattern_excludes_all_witness :
    should_exclude ["**/"] "/w/a" = true
    ∧ find_git_repos ⟨["**/"], []⟩ (.ok "/w/a/.git\n") = [] := by
  have h := empty_pattern_excludes_all ⟨["**/"], []⟩
    ⟨"**/", by decide, by decide⟩
  exact ⟨h.1 "/w/a", h.2 (.ok "/w/a/.git\n")⟩

/-! ### Cap lemmas -/

theorem nFlagArg_none_of_forall (l : List String) (h : ∀ x ∈ l, ¬ (x = "-n")) :
    nFlagArg l = none := by
  induction l with
  | nil => rfl
  | cons a rest ih =>
    have ha : ¬ (a = "-n") := h a (List.mem_cons_self a rest)
    simp only [nFlagArg, if_neg ha]
    exact ih (fun x hx => h x (List.mem_cons_of_mem a hx))

theorem nFlagArg_append_pair (l : List String) (w : String)
    (h : ∀ x ∈ l, ¬ (x = "-n")) : nFlagArg (l ++ ["-n", w]) = some w := by
  induction l with
  | nil => simp [nFlagArg]
  | cons a rest ih =>
    have ha : ¬ (a = "-n") := h a (List.mem_cons_self a rest)
    simp only [List.cons_append, nFlagArg, if_neg ha]
    exact ih (fun x hx => h x (List.mem_cons_of_mem a hx))

theorem since_arg_ne_n (s : String) : ¬ ("--since=" ++ s ++ " 00:00:00" = "-n") := by
  intro h
  rw [String.ext_iff, String.data_append, String.data_append] at h
  obtain ⟨cs⟩ := s
  simp at h

theorem until_arg_ne_n (s : String) : ¬ ("--until=" ++ s ++ " 23:59:59" = "-n") := by
  intro h
  rw [String.ext_iff, String.data_append, String.data_append] at h
  obtain ⟨cs⟩ := s
  simp at h

/-- No element of either base command (with or without `--until`) is `-n`. -/
theorem base_cmd_no_n (since_date : String) (until_date : Option String) :
    (∀ x ∈ gds_git_log_cmd since_date until_date (some 0), ¬ (x = "-n"))
    ∧ ∀ x ∈ aij_git_log_cmd since_date until_date (some 0), ¬ (x = "-n") := by
  constructor <;>
    (cases until_date with
     | none =>
       intro x hx hn
       subst hn
       simp [gds_git_log_cmd, aij_git_log_cmd, pyInsertNeg2] at hx
       exact since_arg_ne_n since_date hx.symm
     | some u =>
       intro x hx hn
       subst hn
       simp [gds_git_log_cmd, aij_git_log_cmd, pyInsertNeg2] at hx
       rcases hx with h | h
       · exact since_arg_ne_n since_date h.symm
       · exact until_arg_ne_n u h.symm)

/-- C10: configuring `max_commits_per_repo = 0` disables the cap entirely —
neither variant passes a `-n` limit to the log query, and the modelled git
call then returns all available commits (so the result may have more than 0
commits) — while any non-zero (truthy) configured value is passed as the
`-n` cap. -/
theorem max_commits_zero_disables_cap (since_date : String) (until_date : Option String) :
    nFlagArg (gds_git_log_cmd since_date until_date (some 0)) = none
    ∧ nFlagArg (aij_git_log_cmd since_date until_date (some 0)) = none
    ∧ (∀ available : List String,
        gitLogModel (gds_git_log_cmd since_date until_date (some 0)) available = available)
    ∧ (∀ available : List String,
        gitLogModel (aij_git_log_cmd since_date until_date (some 0)) available = available)
    ∧ (∀ v : Int, v ≠ 0 →
        nFlagArg (gds_git_log_cmd since_date until_date (some v)) = some (toString v)
        ∧ nFlagArg (aij_git_log_cmd since_date until_date (some v)) = some (toString v)) := by
  obtain ⟨hgds, haij⟩ := base_cmd_no_n since_date until_date
  have h1 : nFlagArg (gds_git_log_cmd since_date until_date (some 0)) = none :=
    nFlagArg_none_of_forall _ hgds
  have h2 : nFlagArg (aij_git_log_cmd since_date until_date (some 0)) = none :=
    nFlagArg_none_of_forall _ haij
  refine ⟨h1, h2, ?_, ?_, ?_⟩
  · intro available
    simp [gitLogModel, h1]
  · intro available
    simp [gitLogModel, h2]
  · intro v hv
    have e1 : gds_git_log_cmd since_date until_date (some v) =
        gds_git_log_cmd since_date until_date (some 0) ++ ["-n", toString v] := by
      unfold gds_git_log_cmd
      simp [hv]
    have e2 : aij_git_log_cmd since_date until_date (some v) =
        aij_git_log_cmd since_date until_date (some 0) ++ ["-n", toString v] := by
      unfold aij_git_log_cmd
      simp [hv]
    rw [e1, e2]
    exact ⟨nFlagArg_append_pair _ _ hgds, nFlagArg_append_pair _ _ haij⟩

/-- Closed instance of `max_commits_zero_disables_cap`: with the cap
configured to 0 the command carries no `-n` and three available commits all
come back; with the cap configured to 7 the command carries `-n 7`. -/
theorem max_commits_zero_disables_cap_witness :
    nFlagArg (gds_git_log_cmd "2024-01-01" none (some 0)) = none
    ∧ gitLogModel (gds_git_log_cmd "2024-01-01" none (some 0)) ["c1", "c2", "c3"] =
        ["c1", "c2", "c3"]
    ∧ nFlagArg (gds_git_log_cmd "2024-01-01" none (some 7)) = some (toString (7 : Int)) := by
  have h := max_commits_zero_disables_cap "2024-01-01" none
  exact ⟨h.1, h.2.2.1 ["c1", "c2", "c3"], (h.2.2.2.2 7 (by decide)).1⟩

/-- C4: for every outcome of the underlying tool call, neither commit
extractor propagates an exception to its caller (the handled computation is
always `.ok`), and on every failure outcome — non-zero exit, timeout,
subprocess error, or any other exception — the result is the empty list. -/
theorem commit_extractor_never_raises (cache : Option (List StatCommit))
    (repoName : String) (outcome : GitOutcome) :
    (∃ cs, gds_get_git_commits cache outcome = .ok cs)
    ∧ (∃ cs, aij_get_git_commits repoName outcome = .ok cs)
    ∧ (cache = none → isGitFailure outcome = true →
        gds_get_git_commits cache outcome = .ok [])
    ∧ (isGitFailure outcome = true →
        aij_get_git_commits repoName outcome = .ok []) := by
  refine ⟨?_, ?_, ?_, ?_⟩
  · cases cache with
    | some cs => exact ⟨cs, rfl⟩
    | none =>
      cases outcome with
      | run rc stdout =>
        by_cases h : rc ≠ 0 <;>
          simp [gds_get_git_commits, gds_git_body, gds_handle, h]
      | timeoutExpired => exact ⟨[], rfl⟩
      | subprocessError => exact ⟨[], rfl⟩
      | chdirError => exact ⟨[], rfl⟩
      | otherError => exact ⟨[], rfl⟩
  · cases outcome with
    | run rc stdout =>
      by_cases h : rc ≠ 0 <;>
        simp [aij_get_git_commits, aij_git_body, aij_handle, h]
    | timeoutExpired => exact ⟨[], rfl⟩
    | subprocessError => exact ⟨[], rfl⟩
    | chdirError => exact ⟨[], rfl⟩
    | otherError => exact ⟨[], rfl⟩
  · rintro rfl hfail
    cases outcome with
    | run rc stdout =>
      have h : rc ≠ 0 := by simpa [isGitFailure] using hfail
      simp [gds_get_git_commits, gds_git_body, gds_handle, h]
    | timeoutExpired => rfl
    | subprocessError => rfl
    | chdirError => rfl
    | otherError => rfl
  · intro hfail
    cases outcome with
    | run rc stdout =>
      have h : rc ≠ 0 := by simpa [isGitFailure] using hfail
      simp [aij_get_git_commits, aij_git_body, aij_handle, h]
    | timeoutExpired => rfl
    | subprocessError => rfl
    | chdirError => rfl
    | otherError => rfl

/-- Closed instance of `commit_extractor_never_raises`: a timeout and a
non-zero exit both yield `.ok []` from both extractors. -/
theorem commit_extractor_never_raises_witness :
    gds_get_git_commits none .timeoutExpired = .ok []
    ∧ aij_get_git_commits "r" (.run 128 "") = .ok [] := by
  exact ⟨(commit_extractor_never_raises none "r" .timeoutExpired).2.2.1 rfl rfl,
    (commit_extractor_never_raises none "r" (.run 128 "")).2.2.2 (by decide)⟩

/-- C5: after each repository-scoped extraction call — normal return, empty
return on failure, or exception — the working directory ends at the workspace
root; the cache-hit fast path of the summary extractor performs no directory
change at all, so starting from the workspace root every call (cached or not)
ends at the workspace root. -/
theorem cwd_restored_after_extraction (workspace_root repo_path repoName cwd : String)
    (cache : Option (List StatCommit)) (outcome : GitOutcome)
    (souts : StatusOutcome) :
    (cache = none →
      (gds_commits_cwd workspace_root repo_path cache outcome cwd).2 = workspace_root)
    ∧ (∀ cs, cache = some cs →
        (gds_commits_cwd workspace_root repo_path cache outcome cwd).2 = cwd)
    ∧ (cwd = workspace_root ∨ cache = none →
        (gds_commits_cwd workspace_root repo_path cache outcome cwd).2 = workspace_root)
    ∧ (aij_commits_cwd workspace_root repo_path repoName outcome cwd).2 = workspace_root
    ∧ gds_file_mods_cwd workspace_root repo_path souts cwd = workspace_root := by
  refine ⟨?_, ?_, ?_, rfl, rfl⟩
  · rintro rfl
    rfl
  · rintro cs rfl
    rfl
  · rintro (rfl | rfl)
    · cases cache with
      | some cs => rfl
      | none => rfl
    · rfl

/-- Closed instance of `cwd_restored_after_extraction`: starting from an
unrelated directory, a failing (timeout) un-cached call still ends at the
workspace root. -/
theorem cwd_restored_after_extraction_witness :
    (gds_commits_cwd "/ws" "/ws/repo" none .timeoutExpired "/elsewhere").2 = "/ws"
    ∧ (aij_commits_cwd "/ws" "/ws/repo" "repo" .chdirError "/elsewhere").2 = "/ws" := by
  have h := cwd_restored_after_extraction "/ws" "/ws/repo" "repo" "/elsewhere"
    none .timeoutExpired (.run 0 "")
  have h2 := cwd_restored_after_extraction "/ws" "/ws/repo" "repo" "/elsewhere"
    none .chdirError (.run 0 "")
  exact ⟨h.1 rfl, h2.2.2.2.1⟩

/-! ### Sorting lemmas for the activity query -/

theorem insertDescRow_perm (r : AIRow) (l : List AIRow) :
    List.Perm (insertDescRow r l) (r :: l) := by
  induction l with
  | nil => exact List.Perm.refl _
  | cons x xs ih =>
    by_cases h : x.timestamp ≤ r.timestamp
    · simp only [insertDescRow, if_pos h]
      exact List.Perm.refl _
    · simp only [insertDescRow, if_neg h]
      exact List.Perm.trans (List.Perm.cons x ih) (List.Perm.swap r x xs)

theorem sortDescRows_perm (l : List AIRow) : List.Perm (sortDescRows l) l := by
  induction l with
  | nil => exact List.Perm.refl _
  | cons r rs ih =>
    exact List.Perm.trans (insertDescRow_perm r (sortDescRows rs)) (List.Perm.cons r ih)

theorem insertDescRow_pairwise (r : AIRow) (l : List AIRow)
    (h : List.Pairwise (fun a b => b.timestamp ≤ a.timestamp) l) :
    List.Pairwise (fun a b => b.timestamp ≤ a.timestamp) (insertDescRow r l) := by
  induction l with
  | nil => simp [insertDescRow]
  | cons x xs ih =>
    rw [List.pairwise_cons] at h
    obtain ⟨hx, hxs⟩ := h
    by_cases hc : x.timestamp ≤ r.timestamp
    · simp only [insertDescRow, if_pos hc]
      rw [List.pairwise_cons]
      refine ⟨?_, List.pairwise_cons.mpr ⟨hx, hxs⟩⟩
      intro y hy
      rcases List.mem_cons.mp hy with rfl | hmem
      · exact hc
      · exact le_trans (hx y hmem) hc
    · simp only [insertDescRow, if_neg hc]
      rw [List.pairwise_cons]
      refine ⟨?_, ih hxs⟩
      intro y hy
      have : y = r ∨ y ∈ xs := List.mem_cons.mp ((insertDescRow_perm r xs).mem_iff.mp hy)
      rcases this with rfl | hmem
      · exact le_of_lt (lt_of_not_le hc)
      · exact hx y hmem

theorem sortDescRows_pairwise (l : List AIRow) :
    List.Pairwise (fun a b => b.timestamp ≤ a.timestamp) (sortDescRows l) := by
  induction l with
  | nil => simp [sortDescRows]
  | cons r rs ih => exact insertDescRow_pairwise r (sortDescRows rs) ih

/-- C8: the AI-activity collector returns the bare empty dictionary when the
store is absent or the feature flag is off, the empty bundle on a read error,
and otherwise exactly the store rows whose millisecond timestamp lies in
`[start_ts·1000, end_ts·1000)` (a permutation of the in-range rows), ordered
most-recent-first (pairwise descending timestamps). -/
theorem cursor_activity_selection (dbExists flag : Bool) (store : StoreOutcome)
    (start_ts end_ts : Int) :
    ((dbExists = false ∨ flag = false) →
      get_cursor_activity dbExists flag store start_ts end_ts = .emptyDict)
    ∧ (dbExists = true → flag = true → store = .readError →
        get_cursor_activity dbExists flag store start_ts end_ts = .bundle [] [] [])
    ∧ ∀ rs, dbExists = true → flag = true → store = .rows rs →
        get_cursor_activity dbExists flag store start_ts end_ts =
            .bundle (queryRowsInRange rs (start_ts * 1000) (end_ts * 1000))
              (filesTouched (queryRowsInRange rs (start_ts * 1000) (end_ts * 1000))) []
        ∧ List.Perm (queryRowsInRange rs (start_ts * 1000) (end_ts * 1000))
            (rs.filter (fun r =>
              decide (start_ts * 1000 ≤ r.timestamp ∧ r.timestamp < end_ts * 1000)))
        ∧ List.Pairwise (fun a b => b.timestamp ≤ a.timestamp)
            (queryRowsInRange rs (start_ts * 1000) (end_ts * 1000)) := by
  refine ⟨?_, ?_, ?_⟩
  · rintro (rfl | rfl)
    · rfl
    · cases dbExists <;> rfl
  · rintro rfl rfl rfl
    rfl
  · rintro rs rfl rfl rfl
    exact ⟨rfl, sortDescRows_perm _, sortDescRows_pairwise _⟩

/-- Closed instance of `cursor_activity_selection`: on the demonstration
store with the day window `[0, 86400)` seconds, the two in-range rows come
back most-recent-first, and an absent store yields the bare empty
dictionary. -/
theorem cursor_activity_selection_witness :
    get_cursor_activity true true (.rows cursorDemoRows) 0 86400 =
        .bundle [⟨"h2", "chat", "b.py", "py", 5000, "c2"⟩,
                 ⟨"h1", "tab", "a.py", "py", 100, "c1"⟩] ["b.py", "a.py"] []
    ∧ get_cursor_activity false true (.rows cursorDemoRows) 0 86400 = .emptyDict := by
  have h := cursor_activity_selection true true (.rows cursorDemoRows) 0 86400
  have habs := cursor_activity_selection false true (.rows cursorDemoRows) 0 86400
  refine ⟨?_, habs.1 (Or.inl rfl)⟩
  rw [(h.2.2 cursorDemoRows rfl rfl rfl).1]
  decide

/-! ### Grouping lemmas -/

theorem groupSizeSum_upsert (m : List (String × List FlatCommit)) (k : String)
    (c : FlatCommit) : groupSizeSum (upsertCommit m k c) = groupSizeSum m + 1 := by
  induction m with
  | nil => simp [upsertCommit, groupSizeSum]
  | cons p rest ih =>
    obtain ⟨k', l⟩ := p
    by_cases h : k' = k
    · simp [upsertCommit, h, groupSizeSum]
      omega
    · simp only [upsertCommit, if_neg h]
      simp [groupSizeSum] at ih ⊢
      omega

theorem groupKeys_upsert (m : List (String × List FlatCommit)) (k : String)
    (c : FlatCommit) :
    groupKeys (upsertCommit m k c) =
      if k ∈ groupKeys m then groupKeys m else groupKeys m ++ [k] := by
  induction m with
  | nil => simp [upsertCommit, groupKeys]
  | cons p rest ih =>
    obtain ⟨k', l⟩ := p
    by_cases h : k' = k
    · subst h
      simp [upsertCommit, groupKeys]
    · have hne : ¬ k = k' := fun hkk => h hkk.symm
      simp only [upsertCommit, if_neg h, groupKeys, List.map_cons]
      rw [show (upsertCommit rest k c).map Prod.fst = groupKeys (upsertCommit rest k c) from rfl]
      rw [ih]
      simp only [groupKeys]
      by_cases hc : k ∈ List.map Prod.fst rest
      · simp [hc, List.mem_cons, hne]
      · simp [hc, List.mem_cons, hne]

theorem lookupGroup_upsert (m : List (String × List FlatCommit)) (k r : String)
    (c : FlatCommit) :
    lookupGroup (upsertCommit m k c) r =
      if k = r then lookupGroup m r ++ [c] else lookupGroup m r := by
  induction m with
  | nil =>
    by_cases h : k = r
    · simp [upsertCommit, lookupGroup, h]
    · simp [upsertCommit, lookupGroup, h]
  | cons p rest ih =>
    obtain ⟨k', l⟩ := p
    by_cases hk : k' = k
    · subst hk
      by_cases hr : k' = r
      · simp [upsertCommit, lookupGroup, hr]
      · simp [upsertCommit, lookupGroup, hr]
    · by_cases hr : k' = r
      · subst hr
        have hne : ¬ (k = k') := fun h => hk h.symm
        simp [upsertCommit, hk, lookupGroup, hne]
      · simp [upsertCommit, hk, lookupGroup, hr, ih]

theorem groupSizeSum_foldl (commits : List FlatCommit) :
    ∀ m, groupSizeSum (commits.foldl (fun m c => upsertCommit m c.repo c) m) =
      groupSizeSum m + commits.length := by
  induction commits with
  | nil => intro m; simp
  | cons c cs ih =>
    intro m
    rw [List.foldl_cons, ih, groupSizeSum_upsert]
    simp
    omega

theorem groupKeys_foldl (commits : List FlatCommit) :
    ∀ m, groupKeys (commits.foldl (fun m c => upsertCommit m c.repo c) m) =
      groupKeys m ++ firstOccurAux (groupKeys m) (commits.map (fun c => c.repo)) := by
  induction commits with
  | nil => intro m; simp [firstOccurAux]
  | cons c cs ih =>
    intro m
    rw [List.foldl_cons, ih, groupKeys_upsert]
    by_cases hc : c.repo ∈ groupKeys m
    · simp [hc, firstOccurAux]
    · simp only [hc, if_false, List.map_cons, firstOccurAux]
      rw [List.append_assoc]
      simp

theorem lookupGroup_foldl (commits : List FlatCommit) (r : String) :
    ∀ m, lookupGroup (commits.foldl (fun m c => upsertCommit m c.repo c) m) r =
      lookupGroup m r ++ commits.filter (fun c => decide (c.repo = r)) := by
  induction commits with
  | nil => intro m; simp
  | cons c cs ih =>
    intro m
    rw [List.foldl_cons, ih, lookupGroup_upsert]
    by_cases h : c.repo = r
    · simp [h, List.filter_cons]
    · simp [h, List.filter_cons]

/-- C7: the context assembler's grouping satisfies — the group sizes sum to
the input length, the reported total commit count is `len(commits)`, the
group iteration order is the first-occurrence order of repository names in
the input, and each group is exactly the input subsequence of commits of that
repository (within-repository order preserved). -/
theorem context_grouping (date workspace : String) (commits : List FlatCommit)
    (plans : List PlanEntry) (activity : CursorActivity) :
    groupSizeSum (prepare_ai_context date commits plans activity workspace).commits_by_repo
        = commits.length
    ∧ (prepare_ai_context date commits plans activity workspace).total_commits
        = commits.length
    ∧ groupKeys (prepare_ai_context date commits plans activity workspace).commits_by_repo
        = firstOccurrences (commits.map (fun c => c.repo))
    ∧ ∀ r, lookupGroup
          (prepare_ai_context date commits plans activity workspace).commits_by_repo r
        = commits.filter (fun c => decide (c.repo = r)) := by
  refine ⟨?_, rfl, ?_, ?_⟩
  · show groupSizeSum (groupCommitsByRepo commits) = commits.length
    rw [groupCommitsByRepo, groupSizeSum_foldl]
    simp [groupSizeSum]
  · show groupKeys (groupCommitsByRepo commits) = firstOccurrences (commits.map (fun c => c.repo))
    rw [groupCommitsByRepo, groupKeys_foldl]
    simp [groupKeys, firstOccurrences]
  · intro r
    show lookupGroup (groupCommitsByRepo commits) r = _
    rw [groupCommitsByRepo, lookupGroup_foldl]
    simp [lookupGroup]

/-- C3 (code bug, summary variant): the claim — and the function's own
docstring, "Get Cursor plan files modified on target date" — say the Plan
Collector keeps exactly the files modified on the target calendar date, but
`generate_daily_summary.py` filters with `find -mtime -1`, a relative
24-hour window that ignores `target_date` entirely.  With target day 0, a
plan file modified 50 seconds before "now" on day 5 is selected even though
its modification date is day 5, not day 0; the journal variant of the same
collector correctly rejects it. -/
theorem plan_collector_relative_window :
    gds_selected_plans 0 (5 * 86400 + 100) [("a.plan.md", 5 * 86400 + 50)] = ["a.plan.md"]
    ∧ epochDay (5 * 86400 + 50) ≠ 0
    ∧ aij_selected_plans 0 [("a.plan.md", 5 * 86400 + 50)] = []
    ∧ aij_selected_plans 5 [("a.plan.md", 5 * 86400 + 50)] = ["a.plan.md"] := by
  refine ⟨by decide, by decide, by decide, by decide⟩

end DailyJournal
